import Mathlib

/-!
Verification of the live-reactions presenter overlay (presenter-overlay).

Shallow embedding of the renderer modules:
* `emoji-animator.js` — the fixed-capacity `EmojiAnimator` object pool;
* `firebase-listener.js` (SSE revision) — `setupSSEListener` frame handling,
  `listenToRoom`, `stopListening`, the questions buffer;
* `renderer.js` — `startListening` / `cancelConnection` / `handleReaction` /
  `handlePaceFeedback` / `leaveRoom`, counters and toggles;
* `main.js` — the `broadcast-emoji` IPC handler fanning out to secondary windows.
-/

namespace Remote

/-! ## AnimationPool (`emoji-animator.js`) -/

/-- One entry of `EmojiAnimator.pool`: `{ element, inUse, animationId }`.
The DOM element carries no pool-relevant state beyond styling, so it is omitted;
`animationId` is the handle of the pending `requestAnimationFrame` callback
(`none` when no frame callback is scheduled). -/
structure PoolItem where
  inUse : Bool
  animationId : Option Nat
  deriving Repr, DecidableEq

/-- The `EmojiAnimator` pool state: the slot array and the `activeCount` field.
`activeCount` is a JS number mutated with `++`/`--`, embedded as `Int`. -/
structure Animator where
  pool : List PoolItem
  activeCount : Int
  deriving Repr, DecidableEq

/-- `poolSize = 100` (constructor of `EmojiAnimator`). -/
def poolSize : Nat := 100

/-- `initPool`: pre-allocates `poolSize` free slots (`inUse: false`, no
scheduled animation frame). -/
def initPool : Animator :=
  { pool := List.replicate poolSize { inUse := false, animationId := none }
    activeCount := 0 }

/-- Number of slots with `inUse = true`. -/
def countInUse (pool : List PoolItem) : Nat :=
  (pool.filter (·.inUse)).length

/-- `getFromPool` acting on the slot array: `pool.find(p => !p.inUse)` marks the
first free slot as in use; returns the updated array and the index of the
acquired slot (the acquired slot also receives the `requestAnimationFrame`
handle that `spawn` installs, modelled as `some 1`). -/
def acquireFirstFree : List PoolItem → Option (List PoolItem)
  | [] => none
  | p :: ps =>
    if p.inUse then
      (acquireFirstFree ps).map (p :: ·)
    else
      some ({ inUse := true, animationId := some 1 } :: ps)

/-- `spawn(emoji)`: `getFromPool`; if the pool is exhausted the request is
dropped (`console.warn`, modelled by the `Bool` result being `true`) and the
state is unchanged; otherwise the first free slot is put in use,
`activeCount` is incremented and the animation frame loop is started.
The function is total: no exception is raised on exhaustion. -/
def spawn (a : Animator) : Animator × Bool :=
  match acquireFirstFree a.pool with
  | none => (a, true)
  | some pool => ({ pool := pool, activeCount := a.activeCount + 1 }, false)

/-- A slot that is not in use and has no scheduled animation frame. -/
def freeSlot : PoolItem :=
  { inUse := false, animationId := none }

/-- `returnToPool(item)` for the slot at index `i`: cancels the pending
animation frame (`animationId := null`), hides the element, sets
`inUse := false` and decrements `activeCount`. -/
def returnToPoolAt (a : Animator) (i : Nat) : Animator :=
  { pool := a.pool.set i freeSlot
    activeCount := a.activeCount - 1 }

/-- The per-frame `animate` callback of slot `i` reaching `progress >= 1`:
the callback only exists while the slot has a scheduled animation frame
(`cancelAnimationFrame` in `returnToPool` removes it), in which case the slot
is returned to the pool. -/
def completeAnimation (a : Animator) (i : Nat) : Animator :=
  match a.pool.get? i with
  | some p => if p.animationId.isSome then returnToPoolAt a i else a
  | none => a

/-- `clear()`: `pool.forEach(item => { if (item.inUse) returnToPool(item) })`;
every in-use slot is force-returned, so each previously in-use slot becomes
free and `activeCount` is decremented once per such slot. -/
def clear (a : Animator) : Animator :=
  { pool := a.pool.map (fun p => if p.inUse then freeSlot else p)
    activeCount := a.activeCount - countInUse a.pool }

/-- `getActiveCount()`. -/
def getActiveCount (a : Animator) : Int :=
  a.activeCount

/-- The operations that act on the pool during a run of the animator. -/
inductive PoolOp where
  | spawn
  | complete (i : Nat)
  | clear
  deriving Repr, DecidableEq

/-- Apply one operation. -/
def applyPoolOp (a : Animator) : PoolOp → Animator
  | .spawn => (spawn a).1
  | .complete i => completeAnimation a i
  | .clear => clear a

/-- Run a sequence of operations from a state. -/
def runPoolOps (a : Animator) (ops : List PoolOp) : Animator :=
  ops.foldl applyPoolOp a

/-- Iterate `spawn` `n` times, discarding the drop flags. -/
def spawnN (a : Animator) : Nat → Animator
  | 0 => a
  | n + 1 => (spawn (spawnN a n)).1

/-! ## StreamTopic (`setupSSEListener` in `firebase-listener.js`, SSE revision) -/

/-- A decoded JSON payload of one stream item. Absent JSON fields are `none`;
`emoji`, `pace`, `text` are the fields the three topic callbacks read. -/
structure Payload where
  emoji : Option String
  pace : Option String
  text : Option String
  timestamp : Option Int
  answered : Option Bool
  deriving Repr, DecidableEq

/-- One incoming SSE frame on a topic subscription: Firebase sends `put`
events (with a `path` and `data`, `data = none` embedding JSON `null`),
`patch` events (a partial update touching several keys), periodic
`keep-alive` events, and a frame whose body fails to parse is `malformed`
(both handlers drop it in their `catch`). -/
inductive Frame where
  | put (path : String) (data : Option Payload)
  | patch (data : List (String × Payload))
  | keepAlive
  | malformed
  deriving Repr, DecidableEq

/-- JS `String.prototype.trim()`: remove whitespace from both ends. -/
def jsTrim (s : String) : String :=
  ⟨((s.data.dropWhile Char.isWhitespace).reverse.dropWhile
      Char.isWhitespace).reverse⟩

/-- JS `String.prototype.toLowerCase()` on room codes: lowercase each
character. -/
def jsToLower (s : String) : String :=
  ⟨s.data.map Char.toLower⟩

/-- `message.path.replace(/^\//, '')`: drop one leading slash. -/
def stripLeadingSlash (s : String) : String :=
  match s.data with
  | '/' :: cs => ⟨cs⟩
  | _ => s

/-- The `put` event handler of `setupSSEListener`, acting on the per-topic
`initialLoadComplete` flag. A root-path frame only sets the flag; a
non-root frame is dispatched (data, key) exactly when the flag is already
set and `message.data` is non-null. Returns the new flag and the list of
`callback` invocations. -/
def ssePutStep (initialLoadComplete : Bool) (path : String)
    (data : Option Payload) : Bool × List (Payload × String) :=
  if path = "/" then
    (true, [])
  else if initialLoadComplete then
    match data with
    | some v => (initialLoadComplete, [(v, stripLeadingSlash path)])
    | none => (initialLoadComplete, [])
  else
    (initialLoadComplete, [])

/-- The `patch` event handler: every key/value pair of `message.data` is
dispatched, with no `initialLoadComplete` gating. -/
def ssePatchStep (data : List (String × Payload)) : List (Payload × String) :=
  data.map (fun kv => (kv.2, kv.1))

/-- Process one frame in the current subscription state. -/
def sseFrameStep (loaded : Bool) : Frame → Bool × List (Payload × String)
  | .put path data => ssePutStep loaded path data
  | .patch data => (loaded, ssePatchStep data)
  | .keepAlive => (loaded, [])
  | .malformed => (loaded, [])

/-- Process a delivery-ordered frame sequence, collecting all `callback`
invocations. A fresh subscription starts with `loaded = false`
(`let initialLoadComplete = false` in `setupSSEListener`). -/
def sseProcess (loaded : Bool) : List Frame → Bool × List (Payload × String)
  | [] => (loaded, [])
  | f :: fs =>
    let step := sseFrameStep loaded f
    let rest := sseProcess step.1 fs
    (rest.1, step.2 ++ rest.2)

/-- The reactions callback registered in `listenToRoom`
(`if (data && data.emoji) { this.onReaction(data.emoji); }`): the emoji is
forwarded iff the payload is non-null and its `emoji` field is truthy
(present and non-empty). Note: the callback logs a timestamp comparison
against `this.startTime` but never acts on it. -/
def reactionCallbackOutput (d : Payload) : Option String :=
  match d.emoji with
  | some e => if e = "" then none else some e
  | none => none

/-- The emojis passed to `onReaction` over a frame sequence on the
`reactions` topic, from a fresh subscription. -/
def reactionForwards (frames : List Frame) : List String :=
  ((sseProcess false frames).2).filterMap (fun pk => reactionCallbackOutput pk.1)

/-! ## Questions buffer (`listenToRoom` questions callback) -/

/-- A stored question `{ id, text, timestamp, answered }`. -/
structure Question where
  id : String
  text : String
  timestamp : Option Int
  answered : Bool
  deriving Repr, DecidableEq

/-- `this.questions.unshift(question); if (this.questions.length > 50)
this.questions.pop();` — newest at the front, oldest (the last element)
evicted when the buffer exceeds 50. -/
def pushQuestion (qs : List Question) (q : Question) : List Question :=
  let qs1 := q :: qs
  if 50 < qs1.length then qs1.dropLast else qs1

/-- The questions callback: a dispatched item with a truthy `text` field is
turned into a `Question` (`answered: data.answered || false`) and pushed;
anything else is ignored. -/
def questionCallback (qs : List Question) (d : Payload) (key : String) :
    List Question :=
  match d.text with
  | some t =>
    if t = "" then qs
    else pushQuestion qs
      { id := key, text := t, timestamp := d.timestamp
        answered := d.answered.getD false }
  | none => qs

/-- Fold the questions callback over a dispatched event sequence. -/
def runQuestionEvents (qs : List Question) (evs : List (Payload × String)) :
    List Question :=
  evs.foldl (fun acc pk => questionCallback acc pk.1 pk.2) qs

/-! ## RoomConnection (`FirebaseListener` lifecycle, SSE revision) -/

/-- The mutable fields of `FirebaseListener` relevant to room lifecycle. -/
structure ListenerState where
  roomCode : Option String
  eventSources : List String
  questions : List Question
  isConnected : Bool
  startTime : Option Int
  deriving Repr, DecidableEq

/-- A presence operation issued against the remote event log
(`PUT`/`DELETE` on `rooms/{code}/host.json`). -/
inductive ServerOp where
  | putHost (room : String)
  | deleteHost (room : String)
  deriving Repr, DecidableEq

/-- Apply one presence operation to the set of rooms holding a host entry. -/
def applyServerOp (hosts : List String) : ServerOp → List String
  | .putHost r => if r ∈ hosts then hosts else r :: hosts
  | .deleteHost r => hosts.filter (fun x => x != r)

/-- Apply a sequence of presence operations in order. -/
def applyServerOps (hosts : List String) (ops : List ServerOp) : List String :=
  ops.foldl applyServerOp hosts

/-- The freshly constructed listener. -/
def initListener : ListenerState :=
  { roomCode := none, eventSources := [], questions := []
    isConnected := false, startTime := none }

/-- `roomCode.toLowerCase().trim()` (`listenToRoom`, line 202). -/
def normalizeRoomCode (code : String) : String :=
  jsTrim (jsToLower code)

/-- `stopListening()`: closes every SSE connection, issues a best-effort
`DELETE` of the host entry when a room is active (failure swallowed), then
clears `roomCode`, `questions` and `isConnected`. Returns the new state and
the presence operations issued. -/
def stopListening (l : ListenerState) : ListenerState × List ServerOp :=
  let ops := match l.roomCode with
    | some rc => [ServerOp.deleteHost rc]
    | none => []
  ({ roomCode := none, eventSources := [], questions := []
     isConnected := false, startTime := l.startTime }, ops)

/-- `listenToRoom(roomCode)`, success path (the host `PUT` resolves ok):
stops existing listeners, normalizes the code, records `startTime`, issues
the host `PUT`, then opens the three topic subscriptions. -/
def listenToRoomSuccess (l : ListenerState) (code : String) (now : Int) :
    ListenerState × List ServerOp :=
  let stop := stopListening l
  let rc := normalizeRoomCode code
  ({ roomCode := some rc
     eventSources := ["reactions", "pace", "questions"]
     questions := stop.1.questions
     isConnected := true
     startTime := some now },
   stop.2 ++ [ServerOp.putHost rc])

/-! ## Renderer (`renderer.js`) and broadcast fan-out (`main.js`) -/

/-- The per-pace-level counters `paceCount = { slow, good, fast }`. -/
structure PaceCount where
  slow : Nat
  good : Nat
  fast : Nat
  deriving Repr, DecidableEq

/-- The `Renderer` state fields the claims are about. -/
structure RendererState where
  reactionCount : Nat
  paceCount : PaceCount
  isListening : Bool
  isConnecting : Bool
  connectionAborted : Bool
  currentRoomCode : Option String
  reactionsEnabled : Bool
  reactionsEnabledSecondary : Bool
  deriving Repr, DecidableEq

/-- The `Renderer` object's initial field values. -/
def initRenderer : RendererState :=
  { reactionCount := 0, paceCount := ⟨0, 0, 0⟩
    isListening := false, isConnecting := false, connectionAborted := false
    currentRoomCode := none
    reactionsEnabled := true, reactionsEnabledSecondary := true }

/-- A secondary overlay window held by the main process. -/
structure SecondaryWindow where
  destroyed : Bool
  deriving Repr, DecidableEq

/-- The `broadcast-emoji` IPC handler in `main.js`: sends one `spawn-emoji`
message to every secondary window that exists and is not destroyed.
Returns the list of delivered messages, one entry per receiving window. -/
def broadcastEmoji (wins : List SecondaryWindow) (emoji : String) :
    List String :=
  (wins.filter (fun w => !w.destroyed)).map (fun _ => emoji)

/-- The rendering effects of handling one event: how many `spawn` calls hit
the primary surface's animator and which broadcast messages reach
secondary windows. -/
structure RenderEffects where
  primarySpawns : Nat
  broadcastMessages : List String
  deriving Repr, DecidableEq

/-- `handleReaction(emoji)`: spawns on the primary display iff
`reactionsEnabled`, broadcasts to secondary displays iff
`reactionsEnabledSecondary`, and always increments the reaction counter. -/
def handleReaction (r : RendererState) (wins : List SecondaryWindow)
    (emoji : String) : RendererState × RenderEffects :=
  ({ r with reactionCount := r.reactionCount + 1 },
   { primarySpawns := if r.reactionsEnabled then 1 else 0
     broadcastMessages :=
       if r.reactionsEnabledSecondary then broadcastEmoji wins emoji else [] })

/-- The `paceEmojis` lookup table in `handlePaceFeedback`. -/
def paceEmoji (pace : String) : Option String :=
  if pace = "slow" then some "🐢"
  else if pace = "good" then some "👍"
  else if pace = "fast" then some "🐇"
  else none

/-- `if (this.paceCount[pace] !== undefined) this.paceCount[pace]++`:
only the three defined levels are counted. -/
def bumpPace (pc : PaceCount) (pace : String) : PaceCount :=
  if pace = "slow" then { pc with slow := pc.slow + 1 }
  else if pace = "good" then { pc with good := pc.good + 1 }
  else if pace = "fast" then { pc with fast := pc.fast + 1 }
  else pc

/-- `handlePaceFeedback(pace)`: maps the pace to an emoji; if one exists,
spawns/broadcasts under the same toggles as reactions; always updates the
pace counters. -/
def handlePaceFeedback (r : RendererState) (wins : List SecondaryWindow)
    (pace : String) : RendererState × RenderEffects :=
  match paceEmoji pace with
  | some _ =>
    ({ r with paceCount := bumpPace r.paceCount pace },
     { primarySpawns := if r.reactionsEnabled then 1 else 0
       broadcastMessages :=
         if r.reactionsEnabledSecondary then
           broadcastEmoji wins ((paceEmoji pace).getD "")
         else [] })
  | none =>
    ({ r with paceCount := bumpPace r.paceCount pace },
     { primarySpawns := 0, broadcastMessages := [] })

/-- The whole client: renderer plus listener. -/
structure AppState where
  renderer : RendererState
  listener : ListenerState
  deriving Repr, DecidableEq

/-- Application state at startup. -/
def initApp : AppState :=
  { renderer := initRenderer, listener := initListener }

/-- The validation prefix of `startListening` (lines 230-240): trims the
input, rejects the empty string and codes shorter than 2 characters
(`shakeInput`, an early return before any listener call). -/
def startListeningValidated (input : String) : Option String :=
  let roomCode := jsTrim input
  if roomCode = "" then none
  else if roomCode.length < 2 then none
  else some roomCode

/-- The renderer update on the success path of `startListening` (the
`await` resolved and `connectionAborted` is false, lines 273-283):
`isListening := true`, the room code is remembered, and the reaction
counter — and only the reaction counter — is reset. -/
def startListeningOnSuccess (r : RendererState) (roomCode : String) :
    RendererState :=
  { r with isListening := true, isConnecting := false
           connectionAborted := false
           currentRoomCode := some roomCode, reactionCount := 0 }

/-- A full uncancelled, successful `startListening` run: validation, then
`listenToRoom` (host `PUT` succeeds), then the success-path renderer
update. Returns `none` when validation rejects the input (in which case no
listener call is made and no presence operation is issued). -/
def connectSuccess (s : AppState) (input : String) (now : Int) :
    Option (AppState × List ServerOp) :=
  match startListeningValidated input with
  | none => none
  | some roomCode =>
    let listen := listenToRoomSuccess s.listener roomCode now
    some ({ renderer := startListeningOnSuccess s.renderer roomCode
            listener := listen.1 }, listen.2)

/-- `leaveRoom()`: stops the listener (closing subscriptions and issuing the
best-effort host `DELETE`), then resets the renderer state: listening flag,
room code, both counters and both toggles. -/
def leaveRoom (s : AppState) : AppState × List ServerOp :=
  let stop := stopListening s.listener
  ({ renderer := { s.renderer with
       isListening := false, currentRoomCode := none
       reactionCount := 0, paceCount := ⟨0, 0, 0⟩
       reactionsEnabled := true, reactionsEnabledSecondary := true }
     listener := stop.1 }, stop.2)

/-- Cancel-during-`Connecting` scenario (`startListening` +
`cancelConnection`): `listenToRoom` has set `roomCode` and issued the host
`PUT`, which is still in flight; `cancelConnection` runs, whose
`stopListening` issues the `DELETE` immediately and clears `roomCode`;
the server applies the two requests in either order
(`deleteAppliedFirst`); then the `PUT` settles, `startListening` sees
`connectionAborted` and calls `stopListening` again (which, `roomCode`
being `none` by now, issues nothing). Result: the rooms holding a host
entry after settlement. -/
def cancelDuringConnectingHosts (deleteAppliedFirst : Bool) : List String :=
  let pre := stopListening initListener
  let rc := normalizeRoomCode "ab"
  let inFlight := { pre.1 with roomCode := some rc, startTime := some 1000 }
  let putOp := ServerOp.putHost rc
  let cancel := stopListening inFlight
  let serverOrder :=
    if deleteAppliedFirst then cancel.2 ++ [putOp] else putOp :: cancel.2
  let late := stopListening cancel.1
  applyServerOps [] (pre.2 ++ serverOrder ++ late.2)

/-- Reconnect scenario for the counters: one `slow` pace event is handled,
then a second successful connection attempt is made. -/
def reconnectDemo : Option (AppState × List ServerOp) :=
  let r1 := (handlePaceFeedback initApp.renderer [] "slow").1
  connectSuccess { initApp with renderer := r1 } "ab" 2000

/-- A renderer state whose primary-surface reactions toggle is off. -/
def primaryOffRenderer : RendererState :=
  { initRenderer with reactionsEnabled := false }

/-- The pre-cutoff reaction of the spec scenario: `{emoji:"🔥",
timestamp:900}` with the connection cutoff at 1000. -/
def preCutoffPayload : Payload :=
  { emoji := some "🔥", pace := none, text := none
    timestamp := some 900, answered := none }

/-- Frame sequence delivering the initial snapshot and then the pre-cutoff
reaction as an incremental item. -/
def preCutoffFrames : List Frame :=
  [Frame.put "/" none, Frame.put "/-k1" (some preCutoffPayload)]

/-! ### Pool lemmas -/

lemma countInUse_cons (p : PoolItem) (ps : List PoolItem) :
    countInUse (p :: ps) = (if p.inUse then 1 else 0) + countInUse ps := by
  by_cases h : p.inUse <;> simp [countInUse, List.filter, h, Nat.add_comm]

lemma countInUse_le_length (pool : List PoolItem) :
    countInUse pool ≤ pool.length :=
  List.length_filter_le _ _

@[simp] lemma freeSlot_inUse : freeSlot.inUse = false := rfl

@[simp] lemma freeSlot_animationId : freeSlot.animationId = none := rfl

lemma acquireFirstFree_cons (p : PoolItem) (ps : List PoolItem) :
    acquireFirstFree (p :: ps) =
      if p.inUse then (acquireFirstFree ps).map (p :: ·)
      else some ({ inUse := true, animationId := some 1 } :: ps) := rfl

lemma length_acquireFirstFree {pool pool' : List PoolItem}
    (h : acquireFirstFree pool = some pool') : pool'.length = pool.length := by
  induction pool generalizing pool' with
  | nil => simp [acquireFirstFree] at h
  | cons p ps ih =>
    rw [acquireFirstFree_cons] at h
    cases hp : p.inUse with
    | true =>
      rw [hp, if_pos rfl] at h
      obtain ⟨ps', hps', rfl⟩ := Option.map_eq_some'.mp h
      simp [ih hps']
    | false =>
      rw [hp] at h
      simp only [Bool.false_eq_true, if_false, Option.some.injEq] at h
      subst h
      simp

lemma countInUse_acquireFirstFree {pool pool' : List PoolItem}
    (h : acquireFirstFree pool = some pool') :
    countInUse pool' = countInUse pool + 1 := by
  induction pool generalizing pool' with
  | nil => simp [acquireFirstFree] at h
  | cons p ps ih =>
    rw [acquireFirstFree_cons] at h
    cases hp : p.inUse with
    | true =>
      rw [hp, if_pos rfl] at h
      obtain ⟨ps', hps', rfl⟩ := Option.map_eq_some'.mp h
      simp only [countInUse_cons, hp, if_pos, ih hps']
      omega
    | false =>
      rw [hp] at h
      simp only [Bool.false_eq_true, if_false, Option.some.injEq] at h
      subst h
      simp [countInUse_cons, hp, Nat.add_comm]

lemma acquireFirstFree_eq_none_iff (pool : List PoolItem) :
    acquireFirstFree pool = none ↔ countInUse pool = pool.length := by
  induction pool with
  | nil => simp [acquireFirstFree, countInUse]
  | cons p ps ih =>
    rw [acquireFirstFree_cons]
    have hle := countInUse_le_length ps
    cases hp : p.inUse with
    | true =>
      simp only [if_pos rfl, Option.map_eq_none', ih, countInUse_cons, hp,
        if_pos, List.length_cons]
      omega
    | false =>
      simp only [Bool.false_eq_true, if_false, countInUse_cons, hp,
        List.length_cons]
      simp only [Nat.zero_add]
      constructor
      · intro h
        exact absurd h (by simp)
      · intro h
        omega

lemma animGood_acquireFirstFree {pool pool' : List PoolItem}
    (hg : ∀ p ∈ pool, p.animationId.isSome = p.inUse)
    (h : acquireFirstFree pool = some pool') :
    ∀ p ∈ pool', p.animationId.isSome = p.inUse := by
  induction pool generalizing pool' with
  | nil => simp [acquireFirstFree] at h
  | cons p ps ih =>
    rw [acquireFirstFree_cons] at h
    cases hp : p.inUse with
    | true =>
      rw [hp, if_pos rfl] at h
      obtain ⟨ps', hps', rfl⟩ := Option.map_eq_some'.mp h
      intro q hq
      rcases List.mem_cons.mp hq with rfl | hq
      · exact hg q (List.mem_cons_self q ps)
      · exact ih (fun r hr => hg r (List.mem_cons_of_mem p hr)) hps' q hq
    | false =>
      rw [hp] at h
      simp only [Bool.false_eq_true, if_false, Option.some.injEq] at h
      subst h
      intro q hq
      rcases List.mem_cons.mp hq with rfl | hq
      · rfl
      · exact hg q (List.mem_cons_of_mem p hq)

lemma countInUse_set_free {pool : List PoolItem} {i : Nat} {p : PoolItem}
    (hget : pool.get? i = some p) (hp : p.inUse = true) :
    countInUse (pool.set i freeSlot) + 1 = countInUse pool := by
  induction pool generalizing i with
  | nil => simp at hget
  | cons q qs ih =>
    cases i with
    | zero =>
      simp only [List.get?, Option.some.injEq] at hget
      subst hget
      simp [List.set_cons_zero, countInUse_cons, hp, Nat.add_comm]
    | succ j =>
      simp only [List.get?] at hget
      have hih := ih hget
      cases hq : q.inUse <;>
        simp [List.set_cons_succ, countInUse_cons, hq] <;>
        omega

lemma countInUse_clearPool (pool : List PoolItem) :
    countInUse (pool.map fun p => if p.inUse then freeSlot else p) = 0 := by
  induction pool with
  | nil => simp [countInUse]
  | cons p ps ih =>
    cases hp : p.inUse <;>
      simp [countInUse_cons, hp, ih]

/-- Well-formedness of an animator state reachable in the program: the slot
array keeps its pre-allocated size, `activeCount` agrees with the number of
in-use slots, and a slot has a scheduled animation frame exactly while in use. -/
def PoolInv (a : Animator) : Prop :=
  a.pool.length = poolSize ∧
  a.activeCount = (countInUse a.pool : Int) ∧
  ∀ p ∈ a.pool, p.animationId.isSome = p.inUse

lemma poolInv_initPool : PoolInv initPool := by
  refine ⟨by simp [initPool, poolSize], by simp [initPool, countInUse], ?_⟩
  intro p hp
  rw [List.eq_of_mem_replicate hp]
  rfl

lemma poolInv_spawn {a : Animator} (h : PoolInv a) : PoolInv (spawn a).1 := by
  obtain ⟨hlen, hcount, hanim⟩ := h
  unfold spawn
  cases hacq : acquireFirstFree a.pool with
  | none => exact ⟨hlen, hcount, hanim⟩
  | some pool' =>
    refine ⟨by rw [length_acquireFirstFree hacq, hlen], ?_, ?_⟩
    · simp [countInUse_acquireFirstFree hacq, hcount]
    · exact animGood_acquireFirstFree hanim hacq

lemma poolInv_complete {a : Animator} (h : PoolInv a) (i : Nat) :
    PoolInv (completeAnimation a i) := by
  obtain ⟨hlen, hcount, hanim⟩ := h
  unfold completeAnimation
  cases hget : a.pool.get? i with
  | none => exact ⟨hlen, hcount, hanim⟩
  | some p =>
    by_cases hsome : p.animationId.isSome
    · have hmem : p ∈ a.pool := List.get?_mem hget
      have hp : p.inUse = true := (hanim p hmem) ▸ hsome
      have hc := countInUse_set_free hget hp
      refine ⟨?_, ?_, ?_⟩
      · simp [returnToPoolAt, hsome, hlen]
      · simp only [hsome, if_pos, returnToPoolAt]
        omega
      · simp only [hsome, if_pos, returnToPoolAt]
        intro q hq
        rcases List.mem_or_eq_of_mem_set hq with hq | rfl
        · exact hanim q hq
        · rfl
    · exact ⟨by simp [hsome, hlen], by simp [hsome, hcount], by
        simpa [hsome] using hanim⟩

lemma poolInv_clear {a : Animator} (h : PoolInv a) : PoolInv (clear a) := by
  obtain ⟨hlen, hcount, hanim⟩ := h
  refine ⟨by simp [clear, hlen], ?_, ?_⟩
  · simp [clear, countInUse_clearPool, hcount]
  · intro q hq
    simp only [clear, List.mem_map] at hq
    obtain ⟨p, hp, rfl⟩ := hq
    by_cases hu : p.inUse
    · simp [hu, freeSlot]
    · simpa [hu] using hanim p hp

lemma poolInv_applyPoolOp {a : Animator} (h : PoolInv a) (op : PoolOp) :
    PoolInv (applyPoolOp a op) := by
  cases op with
  | spawn => exact poolInv_spawn h
  | complete i => exact poolInv_complete h i
  | clear => exact poolInv_clear h

lemma poolInv_runPoolOps {a : Animator} (h : PoolInv a) (ops : List PoolOp) :
    PoolInv (runPoolOps a ops) := by
  induction ops generalizing a with
  | nil => exact h
  | cons op ops ih => exact ih (poolInv_applyPoolOp h op)

lemma spawn_full {a : Animator} (h : countInUse a.pool = a.pool.length) :
    spawn a = (a, true) := by
  unfold spawn
  rw [(acquireFirstFree_eq_none_iff a.pool).mpr h]

lemma countInUse_spawn (a : Animator) :
    countInUse (spawn a).1.pool = min (countInUse a.pool + 1) a.pool.length ∧
      (spawn a).1.pool.length = a.pool.length := by
  unfold spawn
  cases hacq : acquireFirstFree a.pool with
  | none =>
    have hfull := (acquireFirstFree_eq_none_iff a.pool).mp hacq
    have hle := countInUse_le_length a.pool
    constructor
    · simp only []
      omega
    · rfl
  | some pool' =>
    have hfree : ¬ countInUse a.pool = a.pool.length := by
      intro hfull
      rw [(acquireFirstFree_eq_none_iff a.pool).mpr hfull] at hacq
      exact Option.noConfusion hacq
    have hle := countInUse_le_length a.pool
    constructor
    · simp only [countInUse_acquireFirstFree hacq]
      omega
    · exact length_acquireFirstFree hacq

lemma countInUse_spawnN (n : Nat) :
    countInUse (spawnN initPool n).pool = min n poolSize ∧
      (spawnN initPool n).pool.length = poolSize := by
  induction n with
  | zero => simp [spawnN, initPool, countInUse, poolSize]
  | succ n ih =>
    obtain ⟨hc, hl⟩ := ih
    obtain ⟨hc', hl'⟩ := countInUse_spawn (spawnN initPool n)
    refine ⟨?_, by rw [spawnN, hl', hl]⟩
    rw [spawnN, hc', hc, hl]
    omega

lemma runPoolOps_append (a : Animator) (ops ops' : List PoolOp) :
    runPoolOps a (ops ++ ops') = runPoolOps (runPoolOps a ops) ops' := by
  simp [runPoolOps, List.foldl_append]

/-! ### Stream lemmas -/

lemma ssePutStep_nonroot_unloaded {path : String} (h : path ≠ "/")
    (d : Option Payload) : ssePutStep false path d = (false, []) := by
  simp [ssePutStep, h]

lemma sseProcess_puts_no_root (fs : List (String × Option Payload))
    (h : ∀ f ∈ fs, f.1 ≠ "/") :
    sseProcess false (fs.map (fun f => Frame.put f.1 f.2)) = (false, []) := by
  induction fs with
  | nil => rfl
  | cons f fs ih =>
    have hf : f.1 ≠ "/" := h f (List.mem_cons_self f fs)
    have hrest := ih (fun g hg => h g (List.mem_cons_of_mem f hg))
    simp [sseProcess, sseFrameStep, ssePutStep_nonroot_unloaded hf, hrest]

/-! ### Questions-buffer lemmas -/

lemma length_pushQuestion_le {qs : List Question} (h : qs.length ≤ 50)
    (q : Question) : (pushQuestion qs q).length ≤ 50 := by
  unfold pushQuestion
  simp only [List.length_cons]
  by_cases hlen : 50 < qs.length + 1
  · rw [if_pos hlen]
    simp only [List.length_dropLast, List.length_cons]
    omega
  · rw [if_neg hlen]
    simp only [List.length_cons]
    omega

lemma length_questionCallback_le {qs : List Question} (h : qs.length ≤ 50)
    (d : Payload) (key : String) : (questionCallback qs d key).length ≤ 50 := by
  unfold questionCallback
  cases d.text with
  | none => exact h
  | some t =>
    by_cases ht : t = ""
    · simp [ht, h]
    · simp only [ht, if_neg]
      exact length_pushQuestion_le h _

lemma length_runQuestionEvents_le {qs : List Question} (h : qs.length ≤ 50)
    (evs : List (Payload × String)) : (runQuestionEvents qs evs).length ≤ 50 := by
  induction evs generalizing qs with
  | nil => exact h
  | cons ev evs ih =>
    exact ih (length_questionCallback_le h ev.1 ev.2)

/-! ## The claims -/

/-- C1 counterexample: on an active connection with cutoff 1000, the
incremental reaction `{emoji:"🔥", timestamp:900}` delivered after the
initial snapshot has `timestamp < cutoff`, yet it is forwarded to the
reaction handler — the SSE reactions path never compares timestamps, so
"events with `timestamp < cutoff` are never forwarded" is false. -/
theorem C1_counterexample :
    preCutoffPayload.timestamp = some 900 ∧ (900 : Int) < 1000 ∧
      reactionForwards preCutoffFrames = ["🔥"] :=
  ⟨rfl, by decide, by decide⟩

/-- C1 (amended): forwarding is decided by snapshot suppression, not by a
timestamp comparison. A root-path (bulk) frame is never dispatched and
marks the snapshot seen; once the snapshot has been seen, an incremental
put frame with non-null data is dispatched exactly once, whatever its
payload (in particular whatever its timestamp); before the snapshot,
incremental put frames are dropped. -/
theorem C1_amended :
    (∀ (loaded : Bool) (d : Option Payload),
      sseFrameStep loaded (Frame.put "/" d) = (true, [])) ∧
    (∀ (key : String) (v : Payload), key ≠ "/" →
      ssePutStep true key (some v) = (true, [(v, stripLeadingSlash key)])) ∧
    (∀ (key : String) (d : Option Payload), key ≠ "/" →
      ssePutStep false key d = (false, [])) ∧
    (∀ (d : Option Payload) (rest : List Frame),
      (sseProcess false (Frame.put "/" d :: rest)).2 =
        (sseProcess true rest).2) := by
  refine ⟨?_, ?_, ?_, ?_⟩
  · intro loaded d
    simp [sseFrameStep, ssePutStep]
  · intro key v h
    simp [ssePutStep, h]
  · intro key d h
    exact ssePutStep_nonroot_unloaded h d
  · intro d rest
    simp [sseProcess, sseFrameStep, ssePutStep]

/-- Closed witness for C1 (amended): the snapshot-seen dispatch of the
scenario's pre-cutoff reaction, and its suppression before the snapshot. -/
theorem C1_amended_witness :
    ssePutStep true "/-k1" (some preCutoffPayload) =
        (true, [(preCutoffPayload, "-k1")]) ∧
      ssePutStep false "/-k1" (some preCutoffPayload) = (false, []) := by
  constructor
  · have h := C1_amended.2.1 "/-k1" preCutoffPayload (by decide)
    have hs : stripLeadingSlash "/-k1" = "-k1" := by decide
    rw [hs] at h
    exact h
  · exact C1_amended.2.2.1 "/-k1" (some preCutoffPayload) (by decide)

/-- C2: a bulk frame (put with root path) is never dispatched, regardless
of its content — it only marks the snapshot as seen; and on a fresh
subscription, put frames dispatch nothing at all until a bulk frame has
been seen (a put-frame sequence containing no root frame produces no
dispatches and leaves the flag unset). -/
theorem C2_theorem :
    (∀ (loaded : Bool) (d : Option Payload),
      ssePutStep loaded "/" d = (true, [])) ∧
    (∀ fs : List (String × Option Payload), (∀ f ∈ fs, f.1 ≠ "/") →
      sseProcess false (fs.map (fun f => Frame.put f.1 f.2)) = (false, [])) := by
  refine ⟨?_, sseProcess_puts_no_root⟩
  intro loaded d
  simp [ssePutStep]

/-- Closed witness for C2: two incremental put frames before any snapshot
dispatch nothing. -/
theorem C2_witness :
    sseProcess false
        [Frame.put "/-a" (some preCutoffPayload), Frame.put "/-b" none] =
      (false, []) := by
  have h := C2_theorem.2 [("/-a", some preCutoffPayload), ("/-b", none)]
    (by decide)
  simpa using h

/-- C3: the number of in-use pool slots never exceeds the capacity 100
under any operation sequence; spawning `n ≥ 100` times before any
animation completes leaves exactly 100 slots in use; and a spawn against a
full pool returns the state unchanged with the drop flag set (`spawn` is a
total function: the excess spawn is dropped, not queued, and no exception
is raised). -/
theorem C3_theorem :
    (∀ ops : List PoolOp, countInUse (runPoolOps initPool ops).pool ≤ 100) ∧
    (∀ n : Nat, 100 ≤ n → countInUse (spawnN initPool n).pool = 100) ∧
    (∀ a : Animator, countInUse a.pool = a.pool.length → spawn a = (a, true)) := by
  refine ⟨?_, ?_, fun a h => spawn_full h⟩
  · intro ops
    obtain ⟨hlen, -, -⟩ := poolInv_runPoolOps poolInv_initPool ops
    calc countInUse (runPoolOps initPool ops).pool
        ≤ (runPoolOps initPool ops).pool.length := countInUse_le_length _
      _ = 100 := hlen
  · intro n hn
    obtain ⟨hc, -⟩ := countInUse_spawnN n
    rw [hc]
    have : poolSize = 100 := rfl
    omega

/-- A one-slot animator whose only slot is in use, for the C3 witness. -/
def fullDemoAnimator : Animator :=
  { pool := [{ inUse := true, animationId := some 1 }], activeCount := 1 }

/-- Closed witness for C3: 150 spawns leave exactly 100 slots in use, and
a spawn against a full pool is dropped with the state unchanged. -/
theorem C3_witness :
    countInUse (spawnN initPool 150).pool = 100 ∧
      spawn fullDemoAnimator = (fullDemoAnimator, true) :=
  ⟨C3_theorem.2.1 150 (by decide), C3_theorem.2.2 fullDemoAnimator (by decide)⟩

/-- C4: evaluation of the cancel-during-`Connecting` scenario. The host
`PUT` is in flight when `cancelConnection` runs; the cancel-time
`stopListening` issues the `DELETE` immediately and clears `roomCode`, so
the post-settlement `stopListening` issues nothing. If the server applies
the `DELETE` before the in-flight `PUT`, a host entry for the room remains
after settlement — contradicting the claim that no presence entry exists
after settlement regardless of how the registration settles. (The other
interleaving does clean up.) -/
theorem C4_theorem :
    cancelDuringConnectingHosts true = [normalizeRoomCode "ab"] ∧
      cancelDuringConnectingHosts false = [] := by
  constructor <;> decide

/-- C5: for any room code whose trimmed length is at least 2, a successful
connect followed by leave ends with no residual presence entry on the
server, all topic subscriptions closed, both counters reset to zero, and a
second leave performs no further operations (no presence operation is
issued and the state is unchanged). -/
theorem C5_theorem (input : String) (now : Int)
    (h2 : 2 ≤ (jsTrim input).length) :
    ∃ st ops1,
      connectSuccess initApp input now = some (st, ops1) ∧
      applyServerOps [] (ops1 ++ (leaveRoom st).2) = [] ∧
      (leaveRoom st).1.listener.eventSources = [] ∧
      (leaveRoom st).1.renderer.reactionCount = 0 ∧
      (leaveRoom st).1.renderer.paceCount = ⟨0, 0, 0⟩ ∧
      leaveRoom (leaveRoom st).1 = ((leaveRoom st).1, []) := by
  have hne : ¬ jsTrim input = "" := by
    intro h
    rw [h] at h2
    simp at h2
  have hlt : ¬ (jsTrim input).length < 2 := by omega
  have hval : startListeningValidated input = some (jsTrim input) := by
    unfold startListeningValidated
    rw [if_neg hne, if_neg hlt]
  refine ⟨{ renderer := startListeningOnSuccess initApp.renderer (jsTrim input)
            listener :=
              (listenToRoomSuccess initApp.listener (jsTrim input) now).1 },
          (listenToRoomSuccess initApp.listener (jsTrim input) now).2,
          ?_, ?_, ?_, ?_, ?_, ?_⟩
  · simp [connectSuccess, hval]
  · simp [listenToRoomSuccess, stopListening, initApp, initListener,
      leaveRoom, applyServerOps, applyServerOp]
  · simp [leaveRoom, stopListening]
  · simp [leaveRoom]
  · simp [leaveRoom]
  · simp [leaveRoom, stopListening, listenToRoomSuccess,
      startListeningOnSuccess, initApp, initRenderer, initListener]

/-- Closed witness for C5: the room code "ab". -/
theorem C5_witness :
    ∃ st ops1,
      connectSuccess initApp "ab" 5 = some (st, ops1) ∧
      applyServerOps [] (ops1 ++ (leaveRoom st).2) = [] ∧
      (leaveRoom st).1.listener.eventSources = [] ∧
      (leaveRoom st).1.renderer.reactionCount = 0 ∧
      (leaveRoom st).1.renderer.paceCount = ⟨0, 0, 0⟩ ∧
      leaveRoom (leaveRoom st).1 = ((leaveRoom st).1, []) :=
  C5_theorem "ab" 5 (by decide)

/-- C6 counterexample: handle one `slow` pace event, then reconnect
successfully; after the reconnect the `slow` pace counter still reads 1 —
the success path of `startListening` resets only the reaction counter, so
"all of them are reset to zero on reconnect" is false. -/
theorem C6_counterexample :
    reconnectDemo.map (fun x => x.1.renderer.paceCount.slow) = some 1 ∧
      (1 : Nat) ≠ 0 := by
  constructor
  · decide
  · decide

/-- C6 (amended): each dispatched reaction increments the reaction counter
by one and each dispatched pace event increments its level's counter by
one (so the counters are monotonically increasing during a connection);
leave resets the reaction counter and all pace counters to zero; the
success path of a (re)connect resets the reaction counter to zero but
leaves the pace counters unchanged. -/
theorem C6_amended :
    (∀ (r : RendererState) (wins : List SecondaryWindow) (e : String),
      ((handleReaction r wins e).1).reactionCount = r.reactionCount + 1) ∧
    (∀ (r : RendererState) (wins : List SecondaryWindow),
      ((handlePaceFeedback r wins "slow").1).paceCount.slow =
        r.paceCount.slow + 1) ∧
    (∀ (r : RendererState) (wins : List SecondaryWindow),
      ((handlePaceFeedback r wins "good").1).paceCount.good =
        r.paceCount.good + 1) ∧
    (∀ (r : RendererState) (wins : List SecondaryWindow),
      ((handlePaceFeedback r wins "fast").1).paceCount.fast =
        r.paceCount.fast + 1) ∧
    (∀ s : AppState, (leaveRoom s).1.renderer.reactionCount = 0 ∧
      (leaveRoom s).1.renderer.paceCount = ⟨0, 0, 0⟩) ∧
    (∀ (r : RendererState) (c : String),
      (startListeningOnSuccess r c).reactionCount = 0 ∧
      (startListeningOnSuccess r c).paceCount = r.paceCount) := by
  refine ⟨?_, ?_, ?_, ?_, ?_, ?_⟩
  · intro r wins e
    simp [handleReaction]
  · intro r wins
    simp [handlePaceFeedback, paceEmoji, bumpPace]
  · intro r wins
    simp [handlePaceFeedback, paceEmoji, bumpPace]
  · intro r wins
    simp [handlePaceFeedback, paceEmoji, bumpPace]
  · intro s
    exact ⟨rfl, rfl⟩
  · intro r c
    exact ⟨rfl, rfl⟩

/-- C7 counterexample: with the primary-surface reactions toggle off, a
dispatched reaction produces zero spawns on the primary surface — so
"for every dispatched reaction event, exactly one spawn occurs on the
primary surface" is false (and the secondary surfaces are controlled by a
single group toggle, not individually). -/
theorem C7_counterexample :
    ((handleReaction primaryOffRenderer [{ destroyed := false }] "🔥").2).primarySpawns
        = 0 ∧
      (0 : Nat) ≠ 1 := by
  constructor
  · decide
  · decide

/-- C7 (amended): the primary surface and the group of secondary surfaces
are each controlled by one toggle. A dispatched reaction spawns exactly
once on the primary surface when the primary toggle is on and zero times
when it is off; when the secondary group toggle is on, the broadcast
delivers exactly one message per live (non-destroyed) secondary window,
and when it is off no broadcast message is delivered. -/
theorem C7_amended :
    (∀ (r : RendererState) (wins : List SecondaryWindow) (e : String),
      r.reactionsEnabled = true →
        ((handleReaction r wins e).2).primarySpawns = 1) ∧
    (∀ (r : RendererState) (wins : List SecondaryWindow) (e : String),
      r.reactionsEnabled = false →
        ((handleReaction r wins e).2).primarySpawns = 0) ∧
    (∀ (r : RendererState) (wins : List SecondaryWindow) (e : String),
      r.reactionsEnabledSecondary = true →
        ((handleReaction r wins e).2).broadcastMessages =
          broadcastEmoji wins e) ∧
    (∀ (r : RendererState) (wins : List SecondaryWindow) (e : String),
      r.reactionsEnabledSecondary = false →
        ((handleReaction r wins e).2).broadcastMessages = []) ∧
    (∀ (wins : List SecondaryWindow) (e : String),
      (broadcastEmoji wins e).length =
        (wins.filter (fun w => !w.destroyed)).length) := by
  refine ⟨?_, ?_, ?_, ?_, ?_⟩
  · intro r wins e h
    simp [handleReaction, h]
  · intro r wins e h
    simp [handleReaction, h]
  · intro r wins e h
    simp [handleReaction, h]
  · intro r wins e h
    simp [handleReaction, h]
  · intro wins e
    simp [broadcastEmoji]

/-- Two secondary windows, one of them destroyed, for the C7 witness. -/
def demoWins : List SecondaryWindow :=
  [{ destroyed := false }, { destroyed := true }]

/-- Closed witness for C7 (amended): default toggles, two secondary
windows of which one is live. -/
theorem C7_witness :
    ((handleReaction initRenderer demoWins "🔥").2).primarySpawns = 1 ∧
      ((handleReaction initRenderer demoWins "🔥").2).broadcastMessages =
        broadcastEmoji demoWins "🔥" ∧
      (broadcastEmoji demoWins "🔥").length = 1 := by
  refine ⟨C7_amended.1 initRenderer demoWins "🔥" rfl,
    C7_amended.2.2.1 initRenderer demoWins "🔥" rfl, ?_⟩
  have h := C7_amended.2.2.2.2 demoWins "🔥"
  rw [h]
  decide

/-- C8: the questions buffer is bounded at 50 after any sequence of
incoming question events; and when a question arrives while the buffer
holds exactly 50 items, the arriving question is retained at the front and
the oldest stored question (the last element) is evicted, keeping the
length at 50. -/
theorem C8_theorem :
    (∀ evs : List (Payload × String),
      (runQuestionEvents [] evs).length ≤ 50) ∧
    (∀ (qs : List Question) (q : Question), qs.length = 50 →
      pushQuestion qs q = q :: qs.dropLast ∧
      (pushQuestion qs q).length = 50 ∧
      (pushQuestion qs q).head? = some q) := by
  constructor
  · intro evs
    exact length_runQuestionEvents_le (by simp) evs
  · intro qs q h
    have hfull : 50 < (q :: qs).length := by simp [h]
    have step : pushQuestion qs q = q :: qs.dropLast := by
      unfold pushQuestion
      rw [if_pos hfull]
      cases qs with
      | nil => simp at h
      | cons b bs => simp [List.dropLast]
    refine ⟨step, ?_, ?_⟩
    · rw [step]
      simp [List.length_dropLast, h]
    · rw [step]
      rfl

/-- A sample stored question for the C8 witness. -/
def demoQuestion : Question :=
  { id := "q1", text := "why?", timestamp := some 1, answered := false }

/-- A second sample question for the C8 witness. -/
def demoQuestion2 : Question :=
  { id := "q2", text := "again?", timestamp := some 2, answered := false }

/-- Closed witness for C8: a full buffer of 50 questions evicts its oldest
entry on push. -/
theorem C8_witness :
    pushQuestion (List.replicate 50 demoQuestion) demoQuestion2 =
        demoQuestion2 :: (List.replicate 50 demoQuestion).dropLast ∧
      (pushQuestion (List.replicate 50 demoQuestion) demoQuestion2).length
          = 50 ∧
      (pushQuestion (List.replicate 50 demoQuestion) demoQuestion2).head? =
        some demoQuestion2 :=
  C8_theorem.2 (List.replicate 50 demoQuestion) demoQuestion2 (by simp)

/-- C9: `connect` rejects every input whose trimmed length is below 2 —
the attempt stops before any listener call, so no presence registration is
performed; and every accepted code is used lowercased and trimmed as the
room path key of that registration. -/
theorem C9_theorem :
    (∀ (s : AppState) (input : String) (now : Int),
      (jsTrim input).length < 2 → connectSuccess s input now = none) ∧
    (∀ (input : String) (now : Int), 2 ≤ (jsTrim input).length →
      ∃ st, connectSuccess initApp input now =
        some (st, [ServerOp.putHost (jsTrim (jsToLower (jsTrim input)))])) := by
  constructor
  · intro s input now h
    have hval : startListeningValidated input = none := by
      unfold startListeningValidated
      by_cases he : jsTrim input = ""
      · rw [if_pos he]
      · rw [if_neg he, if_pos h]
    simp [connectSuccess, hval]
  · intro input now h2
    have hne : ¬ jsTrim input = "" := by
      intro h
      rw [h] at h2
      simp at h2
    have hlt : ¬ (jsTrim input).length < 2 := by omega
    have hval : startListeningValidated input = some (jsTrim input) := by
      unfold startListeningValidated
      rw [if_neg hne, if_neg hlt]
    refine ⟨{ renderer := startListeningOnSuccess initApp.renderer (jsTrim input)
              listener :=
                (listenToRoomSuccess initApp.listener (jsTrim input) now).1 },
            ?_⟩
    simp [connectSuccess, hval, listenToRoomSuccess, stopListening,
      initApp, initListener, normalizeRoomCode]

/-- Closed witness for C9: `"x"` (trimmed length 1) is rejected with no
presence operation; `" AbC "` is accepted and registers under the key
`"abc"`. -/
theorem C9_witness :
    connectSuccess initApp "x" 0 = none ∧
      (∃ st, connectSuccess initApp " AbC " 0 =
        some (st, [ServerOp.putHost (jsTrim (jsToLower (jsTrim " AbC ")))])) ∧
      jsTrim (jsToLower (jsTrim " AbC ")) = "abc" :=
  ⟨C9_theorem.1 initApp "x" 0 (by decide),
    C9_theorem.2 " AbC " 0 (by decide), by decide⟩

/-- C10: after any sequence of spawn, animation-completion, return-to-pool
and clear operations, `getActiveCount` returns exactly the number of pool
slots with `inUse = true`; and after a final `clear` it returns 0. -/
theorem C10_theorem (ops : List PoolOp) :
    getActiveCount (runPoolOps initPool ops) =
        (countInUse (runPoolOps initPool ops).pool : Int) ∧
      getActiveCount (runPoolOps initPool (ops ++ [PoolOp.clear])) = 0 := by
  obtain ⟨hlen, hcount, hanim⟩ := poolInv_runPoolOps poolInv_initPool ops
  refine ⟨hcount, ?_⟩
  rw [runPoolOps_append]
  have h1 : runPoolOps (runPoolOps initPool ops) [PoolOp.clear] =
      clear (runPoolOps initPool ops) := rfl
  rw [h1]
  simp [getActiveCount, clear, hcount]

end Remote
